import Mathlib

/-!
Verification of the phase-progression session model of Understand.AI.

The development shallowly embeds:
* the type definitions of `lib/types/project.ts`,
* the `TracerMemoryManager` session store of `lib/memory/session-manager.ts`,
* the `POST` orchestration handler of the chat API route.

JavaScript `Map` objects are modelled as association lists with JS `Map`
semantics (`set` replaces in place, otherwise appends; `delete` removes the
entry with the key).  `Date.now()` is modelled by an explicit `now : Nat`
argument.  The external text-generation capabilities (the LangChain agent and
the `DocumentGeneratorChain`) are opaque collaborators; they are modelled by an
oracle recording the outcome (`Except`-style success or thrown error) of each
call, and the handler additionally returns the trace of capability invocations
it performed, so that theorems can speak about the arguments passed to them.
-/

namespace UAI

/-- `ProjectPhase` from `lib/types/project.ts`. -/
inductive ProjectPhase where
  | requirements
  | design
  | tasks
  | complete
deriving DecidableEq, Inhabited

/-- The anonymous `techStack` record type of `RequirementsData`. -/
structure TechStack where
  frontend : Option (List String)
  backend : Option (List String)
  database : Option (List String)
  deployment : Option (List String)
  other : Option (List String)
deriving DecidableEq, Inhabited

/-- The anonymous `theme` record type of `RequirementsData`. -/
structure ThemePrefs where
  style : Option String
  colors : Option (List String)
  preferences : Option String
deriving DecidableEq, Inhabited

/-- The anonymous `usage` record type of `RequirementsData`. -/
structure UsagePrefs where
  expectedUsers : Option String
  scalability : Option String
  performance : Option String
deriving DecidableEq, Inhabited

/-- The `metadata` record of `RequirementsData`. -/
structure VersionMetadata where
  createdAt : Nat
  updatedAt : Nat
  version : Nat
deriving DecidableEq, Inhabited

/-- `RequirementsData` from `lib/types/project.ts`. -/
structure RequirementsData where
  projectName : String
  description : String
  techStack : TechStack
  features : List String
  targetAudience : String
  constraints : List String
  theme : ThemePrefs
  usage : UsagePrefs
  timeline : Option String
  budget : Option String
  metadata : VersionMetadata
deriving DecidableEq, Inhabited

/-- A component of the `architecture` record of `DesignData`. -/
structure ArchComponent where
  name : String
  responsibility : String
  dependencies : List String
deriving DecidableEq, Inhabited

/-- The `architecture` record of `DesignData`. -/
structure Architecture where
  overview : String
  components : List ArchComponent
  dataFlow : String
deriving DecidableEq, Inhabited

/-- A field of a data model in `DesignData`. -/
structure DataModelField where
  name : String
  type : String
  description : String
deriving DecidableEq, Inhabited

/-- A data model entry of `DesignData`. -/
structure DataModel where
  name : String
  fields : List DataModelField
  relationships : List String
deriving DecidableEq, Inhabited

/-- An API endpoint of `DesignData`. -/
structure ApiEndpoint where
  method : String
  path : String
  description : String
  requestBody : Option String
  response : String
deriving DecidableEq, Inhabited

/-- The `apiDesign` record of `DesignData`. -/
structure ApiDesign where
  endpoints : List ApiEndpoint
  authentication : Option String
  rateLimit : Option String
deriving DecidableEq, Inhabited

/-- The `technologyChoices` record of `DesignData`. -/
structure TechnologyChoices where
  frontend : String
  backend : String
  database : String
  deployment : String
  rationale : String
deriving DecidableEq, Inhabited

/-- The `deploymentStrategy` record of `DesignData`. -/
structure DeploymentStrategy where
  environment : String
  cicd : String
  monitoring : String
deriving DecidableEq, Inhabited

/-- The `metadata` record of `DesignData`, with the provenance reference. -/
structure DesignMetadata where
  createdAt : Nat
  updatedAt : Nat
  version : Nat
  basedOnRequirements : String
deriving DecidableEq, Inhabited

/-- `DesignData` from `lib/types/project.ts`. -/
structure DesignData where
  architecture : Architecture
  dataModels : List DataModel
  apiDesign : ApiDesign
  technologyChoices : TechnologyChoices
  deploymentStrategy : DeploymentStrategy
  metadata : DesignMetadata
deriving DecidableEq, Inhabited

/-- The `category` union of `Task`. -/
inductive TaskCategory where
  | setup
  | feature
  | testing
  | deployment
  | documentation
deriving DecidableEq, Inhabited

/-- `Task` from `lib/types/project.ts`. -/
structure Task where
  id : String
  title : String
  description : String
  category : TaskCategory
  dependencies : List String
  estimatedTime : Option String
  acceptanceCriteria : List String
  technicalDetails : Option String
  order : Nat
deriving DecidableEq, Inhabited

/-- A phase grouping of tasks in `TasksData`. -/
structure TaskPhaseGroup where
  name : String
  taskIds : List String
  description : String
deriving DecidableEq, Inhabited

/-- The `metadata` record of `TasksData`, with the provenance reference. -/
structure TasksMetadata where
  createdAt : Nat
  updatedAt : Nat
  version : Nat
  basedOnDesign : String
deriving DecidableEq, Inhabited

/-- `TasksData` from `lib/types/project.ts`. -/
structure TasksData where
  tasks : List Task
  totalEstimate : Option String
  phases : List TaskPhaseGroup
  metadata : TasksMetadata
deriving DecidableEq, Inhabited

/-- The role union of a conversation entry. -/
inductive Role where
  | user
  | assistant
  | system
deriving DecidableEq, Inhabited

/-- An entry of the project session's parallel conversation log. -/
structure PhaseMessage where
  role : Role
  content : String
  timestamp : Nat
  phase : ProjectPhase
deriving DecidableEq, Inhabited

/-- The `metadata` record of `ProjectSession`. -/
structure ProjectMetadata where
  createdAt : Nat
  updatedAt : Nat
  lastPhaseChange : Nat
deriving DecidableEq, Inhabited

/-- `ProjectSession` from `lib/types/project.ts`.  The `userAnswers`
`Record<string, string>` is modelled as an association list. -/
structure ProjectSession where
  sessionId : String
  projectName : String
  currentPhase : ProjectPhase
  requirements : Option RequirementsData
  design : Option DesignData
  tasks : Option TasksData
  conversationHistory : List PhaseMessage
  questionsAsked : List String
  userAnswers : List (String × String)
  metadata : ProjectMetadata
deriving DecidableEq, Inhabited

/-- An entry of a session's conversation history (`ChatContext`). -/
structure Message where
  role : Role
  content : String
  timestamp : Nat
deriving DecidableEq, Inhabited

/-- The `metadata` record of `ChatContext`. -/
structure SessionMetadata where
  createdAt : Nat
  updatedAt : Nat
  messageCount : Nat
deriving DecidableEq, Inhabited

/-- `ChatContext` from `lib/memory/session-manager.ts`. -/
structure ChatContext where
  sessionId : String
  projectSession : Option ProjectSession
  conversationHistory : List Message
  metadata : SessionMetadata
deriving DecidableEq, Inhabited

/-! ### JavaScript `Map` model

The `TracerMemoryManager.sessions` field is a JS `Map<string, ChatContext>`.
We model it as an association list: `set` on a present key replaces the value
in place (preserving iteration order), otherwise appends; `get` returns the
value at the first matching key; `delete` removes the entry with the key. -/

/-- `Map.prototype.get`. -/
def mapGet (m : List (String × α)) (k : String) : Option α :=
  match m with
  | [] => none
  | (k', v) :: rest => if k' = k then some v else mapGet rest k

/-- `Map.prototype.set`: replace in place if the key is present, else append. -/
def mapSet (m : List (String × α)) (k : String) (v : α) : List (String × α) :=
  match m with
  | [] => [(k, v)]
  | (k', v') :: rest => if k' = k then (k, v) :: rest else (k', v') :: mapSet rest k v

/-- `Map.prototype.delete` (the return value is unused by the source). -/
def mapDelete (m : List (String × α)) (k : String) : List (String × α) :=
  match m with
  | [] => []
  | (k', v') :: rest => if k' = k then rest else (k', v') :: mapDelete rest k

/-- `TracerMemoryManager` from `lib/memory/session-manager.ts`. -/
structure TracerMemoryManager where
  sessions : List (String × ChatContext)
  maxMessagesPerSession : Nat
deriving DecidableEq, Inhabited

/-- The fresh `ChatContext` literal built by `createSession`. -/
def emptyChatContext (sessionId : String) (now : Nat) : ChatContext :=
  { sessionId := sessionId
    projectSession := none
    conversationHistory := []
    metadata := { createdAt := now, updatedAt := now, messageCount := 0 } }

/-- `createSession`: builds a fresh context, stores it, and returns it. -/
def createSession (mm : TracerMemoryManager) (sessionId : String) (now : Nat) :
    TracerMemoryManager × ChatContext :=
  let context := emptyChatContext sessionId now
  ({ mm with sessions := mapSet mm.sessions sessionId context }, context)

/-- `getSession`: returns the existing context or lazily creates a fresh one. -/
def getSession (mm : TracerMemoryManager) (sessionId : String) (now : Nat) :
    TracerMemoryManager × ChatContext :=
  match mapGet mm.sessions sessionId with
  | some existing => (mm, existing)
  | none => createSession mm sessionId now

/-- JavaScript `array.slice(-cap)`.  For `cap > 0` this keeps the last `cap`
elements; for `cap = 0` the start index `-0` is `0`, so the WHOLE array is
kept (no trimming). -/
def jsSliceLast (cap : Nat) (l : List α) : List α :=
  if cap = 0 then l else l.drop (l.length - cap)

/-- `addMessage`: push the entry, trim the history from the front if it now
exceeds `maxMessagesPerSession`, stamp metadata. -/
def addMessage (mm : TracerMemoryManager) (sessionId : String) (role : Role)
    (content : String) (now : Nat) : TracerMemoryManager :=
  let got := getSession mm sessionId now
  let mm1 := got.1
  let session := got.2
  let hist := session.conversationHistory ++ [{ role := role, content := content, timestamp := now }]
  let hist := if hist.length > mm1.maxMessagesPerSession then
      jsSliceLast mm1.maxMessagesPerSession hist
    else hist
  let session := { session with
    conversationHistory := hist
    metadata := { session.metadata with
      updatedAt := now
      messageCount := session.metadata.messageCount + 1 } }
  { mm1 with sessions := mapSet mm1.sessions sessionId session }

/-- `getConversationHistory`: `session?.conversationHistory || []`. -/
def getConversationHistory (mm : TracerMemoryManager) (sessionId : String) : List Message :=
  ((mapGet mm.sessions sessionId).map (fun s => s.conversationHistory)).getD []

/-- The fresh `ProjectSession` literal built by `initializeProjectSession`. -/
def freshProjectSession (sessionId projectName : String) (now : Nat) : ProjectSession :=
  { sessionId := sessionId
    projectName := projectName
    currentPhase := ProjectPhase.requirements
    requirements := none
    design := none
    tasks := none
    conversationHistory := []
    questionsAsked := []
    userAnswers := []
    metadata := { createdAt := now, updatedAt := now, lastPhaseChange := now } }

/-- `initializeProjectSession`: unconditionally stores a fresh project session
on the (lazily created) session record and returns it. -/
def initializeProjectSession (mm : TracerMemoryManager) (sessionId projectName : String)
    (now : Nat) : TracerMemoryManager × ProjectSession :=
  let got := getSession mm sessionId now
  let mm1 := got.1
  let projectSession := freshProjectSession sessionId projectName now
  let session := { got.2 with projectSession := some projectSession }
  ({ mm1 with sessions := mapSet mm1.sessions sessionId session }, projectSession)

/-- `getProjectSession`: `this.sessions.get(sessionId)?.projectSession`. -/
def getProjectSession (mm : TracerMemoryManager) (sessionId : String) : Option ProjectSession :=
  (mapGet mm.sessions sessionId).bind (fun s => s.projectSession)

/-- `updateProjectPhase`: thin setter; does nothing when no project session. -/
def updateProjectPhase (mm : TracerMemoryManager) (sessionId : String)
    (phase : ProjectPhase) (now : Nat) : TracerMemoryManager :=
  let got := getSession mm sessionId now
  let mm1 := got.1
  match got.2.projectSession with
  | none => mm1
  | some ps =>
    let session := { got.2 with projectSession := some { ps with
      currentPhase := phase
      metadata := { ps.metadata with updatedAt := now, lastPhaseChange := now } } }
    { mm1 with sessions := mapSet mm1.sessions sessionId session }

/-- `setRequirements`: stores the payload when a project session exists. -/
def setRequirements (mm : TracerMemoryManager) (sessionId : String)
    (requirements : RequirementsData) (now : Nat) : TracerMemoryManager :=
  let got := getSession mm sessionId now
  let mm1 := got.1
  match got.2.projectSession with
  | none => mm1
  | some ps =>
    let session := { got.2 with projectSession := some { ps with
      requirements := some requirements
      metadata := { ps.metadata with updatedAt := now } } }
    { mm1 with sessions := mapSet mm1.sessions sessionId session }

/-- `setDesign`: stores the payload when a project session exists. -/
def setDesign (mm : TracerMemoryManager) (sessionId : String)
    (design : DesignData) (now : Nat) : TracerMemoryManager :=
  let got := getSession mm sessionId now
  let mm1 := got.1
  match got.2.projectSession with
  | none => mm1
  | some ps =>
    let session := { got.2 with projectSession := some { ps with
      design := some design
      metadata := { ps.metadata with updatedAt := now } } }
    { mm1 with sessions := mapSet mm1.sessions sessionId session }

/-- `setTasks`: stores the payload when a project session exists. -/
def setTasks (mm : TracerMemoryManager) (sessionId : String)
    (tasks : TasksData) (now : Nat) : TracerMemoryManager :=
  let got := getSession mm sessionId now
  let mm1 := got.1
  match got.2.projectSession with
  | none => mm1
  | some ps =>
    let session := { got.2 with projectSession := some { ps with
      tasks := some tasks
      metadata := { ps.metadata with updatedAt := now } } }
    { mm1 with sessions := mapSet mm1.sessions sessionId session }

/-- `isPhaseComplete`: a phase is complete iff its payload exists;
`complete` iff all three exist; `false` when there is no project session. -/
def isPhaseComplete (mm : TracerMemoryManager) (sessionId : String)
    (phase : ProjectPhase) : Bool :=
  match (mapGet mm.sessions sessionId).bind (fun s => s.projectSession) with
  | none => false
  | some ps =>
    match phase with
    | ProjectPhase.requirements => ps.requirements.isSome
    | ProjectPhase.design => ps.design.isSome
    | ProjectPhase.tasks => ps.tasks.isSome
    | ProjectPhase.complete => ps.requirements.isSome && ps.design.isSome && ps.tasks.isSome

/-- `getActiveSessions`: the keys of the session map, in iteration order. -/
def getActiveSessions (mm : TracerMemoryManager) : List String :=
  mm.sessions.map Prod.fst

/-- The staleness test of `pruneOldSessions`:
`context.metadata.updatedAt < cutoffTime` (over the integers, as JS numbers). -/
def isStale (cutoffTime : Int) (entry : String × ChatContext) : Bool :=
  decide ((entry.2.metadata.updatedAt : Int) < cutoffTime)

/-- One iteration of the `pruneOldSessions` loop: delete and count if stale. -/
def pruneStep (cutoffTime : Int) (acc : List (String × ChatContext) × Nat)
    (entry : String × ChatContext) : List (String × ChatContext) × Nat :=
  if isStale cutoffTime entry then (mapDelete acc.1 entry.1, acc.2 + 1) else acc

/-- `pruneOldSessions`: iterates over the entries, deleting every session whose
`metadata.updatedAt` is older than `now - hoursOld` hours, and returns the
number removed together with the updated manager. -/
def pruneOldSessions (mm : TracerMemoryManager) (hoursOld : Nat) (now : Nat) :
    Nat × TracerMemoryManager :=
  let cutoffTime : Int := (now : Int) - (hoursOld : Int) * 60 * 60 * 1000
  let folded := mm.sessions.foldl (pruneStep cutoffTime) (mm.sessions, 0)
  (folded.2, { mm with sessions := folded.1 })

/-! ### The orchestration entry point (the chat API route's `POST` handler) -/

/-- A content part of an inbound `UIMessage` (only text parts are consulted). -/
structure MessagePart where
  type : String
  text : String
deriving DecidableEq, Inhabited

/-- An inbound chat message (the fields the handler consults). -/
structure UIMessage where
  role : String
  parts : List MessagePart
deriving DecidableEq, Inhabited

/-- The outcome of the handler: an error response with an HTTP status, or a
success response carrying the reply text, the optionally generated document
`{ type, content }`, and the optional project-session snapshot. -/
inductive PostResponse where
  | errorResponse (status : Nat) (message : String)
  | ok (content : String) (document : Option (ProjectPhase × String))
      (projectSession : Option ProjectSession)
deriving DecidableEq, Inhabited

/-- Outcomes of the external generation capabilities for one request:
`Except.ok` models a returned string, `Except.error` a thrown error. -/
structure AgentOracle where
  chatResult : Except String String
  genRequirementsResult : Except String String
  genDesignResult : Except String String
  genTasksResult : Except String String

/-- A recorded invocation of an external capability, with its arguments. -/
inductive CapabilityCall where
  | chat (message : String)
  | genRequirements (session : ProjectSession)
  | genDesign (techStackStr : String) (session : ProjectSession)
  | genTasks (design : String) (requirements : String)
deriving DecidableEq, Inhabited

/-- The transition note appended to the reply after Requirements.md. -/
def requirementsTransitionNote : String :=
  "\n\nâœ… **Requirements.md generated!** You can download it below.\n\nNow let\x27s move to the design phase. I\x27ll help you create a system architecture."

/-- The transition note appended to the reply after Design.md. -/
def designTransitionNote : String :=
  "\n\nâœ… **Design.md generated!** You can download it below.\n\nNow let\x27s break this down into tasks. I\x27ll create a detailed task list."

/-- The transition note appended to the reply after Tasks.md. -/
def tasksTransitionNote : String :=
  "\n\nâœ… **Tasks.md generated!** You can download it below.\n\nðŸŽ‰ All three documents are ready! You can now hand these off to AI agents like Cursor, Windsurf, or Claude for implementation."

/-- The `techStackStr` computation of the design branch:
`Array.isArray(requirements?.techStack?.frontend) ? join(", ") : (... || "Not specified")`. -/
def techStackString (requirements : Option RequirementsData) : String :=
  match requirements with
  | some r =>
    match r.techStack.frontend with
    | some frontendList => String.intercalate ", " frontendList
    | none => "Not specified"
  | none => "Not specified"

/-- The document-generation section of the `POST` handler (the three
phase-completion branches).  Returns the updated manager, the (possibly
augmented) reply text, the generated document if any, and the capability
calls performed.  Each branch awaits the generation capability first; a thrown
error is caught and logged, leaving the state untouched. -/
def runPhaseGeneration (mm : TracerMemoryManager) (oracle : AgentOracle)
    (sessionId : String) (ps : ProjectSession) (reply : String) (now : Nat) :
    TracerMemoryManager × String × Option (ProjectPhase × String) × List CapabilityCall :=
  if ps.currentPhase = ProjectPhase.requirements ∧
      isPhaseComplete mm sessionId ProjectPhase.requirements = true then
    match oracle.genRequirementsResult with
    | Except.ok requirementsDoc =>
      let mm1 := setRequirements mm sessionId (ps.requirements.getD default) now
      let mm2 := updateProjectPhase mm1 sessionId ProjectPhase.design now
      (mm2, reply ++ requirementsTransitionNote,
        some (ProjectPhase.requirements, requirementsDoc), [CapabilityCall.genRequirements ps])
    | Except.error _ => (mm, reply, none, [CapabilityCall.genRequirements ps])
  else if ps.currentPhase = ProjectPhase.design ∧
      isPhaseComplete mm sessionId ProjectPhase.design = true then
    let techStackStr := techStackString ps.requirements
    match oracle.genDesignResult with
    | Except.ok designDoc =>
      let mm1 := setDesign mm sessionId (ps.design.getD default) now
      let mm2 := updateProjectPhase mm1 sessionId ProjectPhase.tasks now
      (mm2, reply ++ designTransitionNote,
        some (ProjectPhase.design, designDoc), [CapabilityCall.genDesign techStackStr ps])
    | Except.error _ => (mm, reply, none, [CapabilityCall.genDesign techStackStr ps])
  else if ps.currentPhase = ProjectPhase.tasks ∧
      isPhaseComplete mm sessionId ProjectPhase.tasks = true then
    match oracle.genTasksResult with
    | Except.ok tasksDoc =>
      let mm1 := setTasks mm sessionId (ps.tasks.getD default) now
      let mm2 := updateProjectPhase mm1 sessionId ProjectPhase.complete now
      (mm2, reply ++ tasksTransitionNote,
        some (ProjectPhase.tasks, tasksDoc),
        [CapabilityCall.genTasks "Design document" "Requirements document"])
    | Except.error _ =>
      (mm, reply, none, [CapabilityCall.genTasks "Design document" "Requirements document"])
  else (mm, reply, none, [])

/-- The `POST` handler of the chat API route.  `hasApiKey` models the
environment-variable check, `agentsOk` whether agent construction succeeds,
`messages = none` a request body without a `messages` field.  Returns the
response, the manager after the request (mutations made before a thrown
error persist, as the manager is shared module state), and the trace of
external capability invocations. -/
def POST (mm : TracerMemoryManager) (oracle : AgentOracle) (hasApiKey agentsOk : Bool)
    (messages : Option (List UIMessage)) (sessionId : Option String) (now : Nat) :
    PostResponse × TracerMemoryManager × List CapabilityCall :=
  if hasApiKey = false then
    (PostResponse.errorResponse 500
      "API key not configured. Please add OPENROUTER_API_KEY to your .env.local file.", mm, [])
  else if agentsOk = false then
    (PostResponse.errorResponse 500
      "AI service initialization failed. Check your API key configuration.", mm, [])
  else
    let msgs := messages.getD []
    if msgs.length = 0 then
      (PostResponse.errorResponse 400 "No messages provided", mm, [])
    else
      let effectiveSessionId :=
        match sessionId with
        | some sid => if sid = "" then "session-" ++ toString now else sid
        | none => "session-" ++ toString now
      let mm1 := (getSession mm effectiveSessionId now).1
      let lastMessage := msgs.getLastD default
      let userMessage :=
        ((lastMessage.parts.find? (fun p => p.type == "text")).map (fun p => p.text)).getD ""
      let mm2 := addMessage mm1 effectiveSessionId Role.user userMessage now
      let ps0 := getProjectSession mm2 effectiveSessionId
      let mm3 := if ps0 = none ∧ msgs.length = 1 then
          (initializeProjectSession mm2 effectiveSessionId "New Project" now).1
        else mm2
      let projectSession := getProjectSession mm3 effectiveSessionId
      match oracle.chatResult with
      | Except.error e =>
        (PostResponse.errorResponse 500 e, mm3, [CapabilityCall.chat userMessage])
      | Except.ok reply =>
        let gen := match projectSession with
          | some ps => runPhaseGeneration mm3 oracle effectiveSessionId ps reply now
          | none => (mm3, reply, none, [])
        let mm4 := gen.1
        let response := gen.2.1
        let generatedDocument := gen.2.2.1
        let genCalls := gen.2.2.2
        let mm5 := addMessage mm4 effectiveSessionId Role.assistant response now
        let snapshot := if generatedDocument.isSome then
            getProjectSession mm5 effectiveSessionId
          else none
        (PostResponse.ok response generatedDocument snapshot, mm5,
          CapabilityCall.chat userMessage :: genCalls)

/-- One orchestration step's inputs (request body plus environment). -/
structure PostRequest where
  oracle : AgentOracle
  hasApiKey : Bool
  agentsOk : Bool
  messages : Option (List UIMessage)
  sessionId : Option String
  now : Nat

/-- The state transition performed by one `POST` invocation. -/
def postStep (mm : TracerMemoryManager) (r : PostRequest) : TracerMemoryManager :=
  (POST mm r.oracle r.hasApiKey r.agentsOk r.messages r.sessionId r.now).2.1

/-! ### Specification-side helper definitions -/

/-- The index of a phase in the fixed order requirements→design→tasks→complete. -/
def phaseIdx : ProjectPhase → Nat
  | ProjectPhase.requirements => 0
  | ProjectPhase.design => 1
  | ProjectPhase.tasks => 2
  | ProjectPhase.complete => 3

/-- Forward order on optional phases: an absent project session precedes
everything; once present, the phase may only move forward in the fixed order. -/
def phaseLe : Option ProjectPhase → Option ProjectPhase → Prop
  | none, _ => True
  | some _, none => False
  | some p, some q => phaseIdx p ≤ phaseIdx q

/-- The current phase stored for a session key, if any. -/
def phaseOf (mm : TracerMemoryManager) (sessionId : String) : Option ProjectPhase :=
  (getProjectSession mm sessionId).map (fun ps => ps.currentPhase)

/-- The three document payloads stored for a session key, if a project
session exists. -/
def payloadsOf (mm : TracerMemoryManager) (sessionId : String) :
    Option (Option RequirementsData × Option DesignData × Option TasksData) :=
  (getProjectSession mm sessionId).map (fun ps => (ps.requirements, ps.design, ps.tasks))

/-- The conversation history stored for a session key (empty when absent). -/
def historyOf (mm : TracerMemoryManager) (sessionId : String) : List Message :=
  ((mapGet mm.sessions sessionId).map (fun s => s.conversationHistory)).getD []

/-- The phase following `p` in the fixed order. -/
def nextPhase : ProjectPhase → ProjectPhase
  | ProjectPhase.requirements => ProjectPhase.design
  | ProjectPhase.design => ProjectPhase.tasks
  | ProjectPhase.tasks => ProjectPhase.complete
  | ProjectPhase.complete => ProjectPhase.complete

/-- The generation-capability outcome the handler consults for phase `p`. -/
def genResultFor (oracle : AgentOracle) : ProjectPhase → Except String String
  | ProjectPhase.requirements => oracle.genRequirementsResult
  | ProjectPhase.design => oracle.genDesignResult
  | ProjectPhase.tasks => oracle.genTasksResult
  | ProjectPhase.complete => Except.ok ""

/-- The transition note the handler appends for phase `p`. -/
def transitionNote : ProjectPhase → String
  | ProjectPhase.requirements => requirementsTransitionNote
  | ProjectPhase.design => designTransitionNote
  | ProjectPhase.tasks => tasksTransitionNote
  | ProjectPhase.complete => ""

/-- The common shape of `updateProjectPhase`/`setRequirements`/`setDesign`/
`setTasks`: get-or-create the session, and if a project session exists,
replace it by `f` applied to it (otherwise do nothing further). -/
def modifyProjectSession (mm : TracerMemoryManager) (sessionId : String)
    (f : ProjectSession → ProjectSession) (now : Nat) : TracerMemoryManager :=
  let got := getSession mm sessionId now
  let mm1 := got.1
  match got.2.projectSession with
  | none => mm1
  | some ps =>
    let session := { got.2 with projectSession := some (f ps) }
    { mm1 with sessions := mapSet mm1.sessions sessionId session }

/-! ### Concrete sample data (used by witnesses and the counterexample) -/

/-- `new TracerMemoryManager()` (default cap 50, empty store). -/
def emptyManager : TracerMemoryManager :=
  { sessions := [], maxMessagesPerSession := 50 }

/-- A store whose session `s` has a freshly initialized project session
(phase `requirements`) that was then advanced to `design`. -/
def mmBeforeReinit : TracerMemoryManager :=
  updateProjectPhase ((initializeProjectSession emptyManager "s" "Proj" 1).1) "s"
    ProjectPhase.design 2

/-- A store whose session `s` is in phase `requirements` with a stored
Requirements payload. -/
def mmWithRequirements : TracerMemoryManager :=
  setRequirements ((initializeProjectSession emptyManager "s" "Proj" 1).1) "s" default 2

/-- A store whose session `s` is in phase `design` with a stored Design
payload. -/
def mmWithDesign : TracerMemoryManager :=
  setDesign
    (updateProjectPhase ((initializeProjectSession emptyManager "s" "Proj" 1).1) "s"
      ProjectPhase.design 2)
    "s" default 3

/-- A store whose session `s` is in phase `tasks` with a stored Tasks
payload. -/
def mmWithTasks : TracerMemoryManager :=
  setTasks
    (updateProjectPhase ((initializeProjectSession emptyManager "s" "Proj" 1).1) "s"
      ProjectPhase.tasks 2)
    "s" default 3

/-- A store with one session last updated at hour 1 and one at hour 30
(scenario E, evaluated at `now` = hour 31). -/
def mmTwoSessions : TracerMemoryManager :=
  (getSession ((getSession emptyManager "stale" (1 * 3600000)).1) "recent" (30 * 3600000)).1

/-- An oracle where every capability succeeds. -/
def okOracle : AgentOracle :=
  { chatResult := Except.ok "reply"
    genRequirementsResult := Except.ok "REQDOC"
    genDesignResult := Except.ok "DESIGNDOC"
    genTasksResult := Except.ok "TASKSDOC" }

/-- An oracle where the chat reply succeeds but Design generation throws. -/
def designFailOracle : AgentOracle :=
  { chatResult := Except.ok "reply"
    genRequirementsResult := Except.ok "REQDOC"
    genDesignResult := Except.error "boom"
    genTasksResult := Except.ok "TASKSDOC" }

/-- A one-element inbound message list. -/
def sampleMessages : List UIMessage :=
  [{ role := "user", parts := [{ type := "text", text := "hello" }] }]

/-! ### Basic lemmas about the map model and `getSession` -/

theorem mapGet_mapSet_self (m : List (String × α)) (k : String) (v : α) :
    mapGet (mapSet m k v) k = some v := by
  induction m with
  | nil => simp [mapSet, mapGet]
  | cons hd tl ih =>
    obtain ⟨k', v'⟩ := hd
    by_cases h : k' = k
    · simp [mapSet, mapGet, h]
    · simp [mapSet, mapGet, h, ih]

theorem mapGet_mapSet_ne (m : List (String × α)) (ks kq : String) (v : α)
    (h : kq ≠ ks) : mapGet (mapSet m ks v) kq = mapGet m kq := by
  have h' : ¬ ks = kq := fun hh => h hh.symm
  induction m with
  | nil => simp [mapSet, mapGet, h']
  | cons hd tl ih =>
    obtain ⟨k', v'⟩ := hd
    by_cases hk : k' = ks
    · subst hk
      simp [mapSet, mapGet, h']
    · simp [mapSet, mapGet, hk, ih]

theorem getSession_eq_of_get_some (mm : TracerMemoryManager) (k : String) (now : Nat)
    (ctx : ChatContext) (h : mapGet mm.sessions k = some ctx) :
    getSession mm k now = (mm, ctx) := by
  simp [getSession, h]

theorem getSession_eq_of_get_none (mm : TracerMemoryManager) (k : String) (now : Nat)
    (h : mapGet mm.sessions k = none) :
    getSession mm k now =
      ({ mm with sessions := mapSet mm.sessions k (emptyChatContext k now) },
        emptyChatContext k now) := by
  simp [getSession, createSession, h]

theorem getSession_snd_projectSession (mm : TracerMemoryManager) (k : String) (now : Nat) :
    ((getSession mm k now).2).projectSession = getProjectSession mm k := by
  cases hm : mapGet mm.sessions k with
  | some ctx => simp [getSession_eq_of_get_some mm k now ctx hm, getProjectSession, hm]
  | none => simp [getSession_eq_of_get_none mm k now hm, getProjectSession, hm, emptyChatContext]

theorem getSession_snd_history (mm : TracerMemoryManager) (k : String) (now : Nat) :
    ((getSession mm k now).2).conversationHistory = historyOf mm k := by
  cases hm : mapGet mm.sessions k with
  | some ctx => simp [getSession_eq_of_get_some mm k now ctx hm, historyOf, hm]
  | none => simp [getSession_eq_of_get_none mm k now hm, historyOf, hm, emptyChatContext]

theorem getSession_fst_max (mm : TracerMemoryManager) (k : String) (now : Nat) :
    ((getSession mm k now).1).maxMessagesPerSession = mm.maxMessagesPerSession := by
  cases hm : mapGet mm.sessions k with
  | some ctx => simp [getSession_eq_of_get_some mm k now ctx hm]
  | none => simp [getSession_eq_of_get_none mm k now hm]

theorem mapGet_getSession_fst_self (mm : TracerMemoryManager) (k : String) (now : Nat) :
    mapGet ((getSession mm k now).1).sessions k = some ((getSession mm k now).2) := by
  cases hm : mapGet mm.sessions k with
  | some ctx => simp [getSession_eq_of_get_some mm k now ctx hm, hm]
  | none => simp [getSession_eq_of_get_none mm k now hm, mapGet_mapSet_self]

theorem mapGet_getSession_fst_ne (mm : TracerMemoryManager) (k : String) (now : Nat)
    (kq : String) (h : kq ≠ k) :
    mapGet ((getSession mm k now).1).sessions kq = mapGet mm.sessions kq := by
  cases hm : mapGet mm.sessions k with
  | some ctx => simp [getSession_eq_of_get_some mm k now ctx hm]
  | none => simp [getSession_eq_of_get_none mm k now hm, mapGet_mapSet_ne _ _ _ _ h]

theorem getProjectSession_getSession_fst (mm : TracerMemoryManager) (k : String) (now : Nat)
    (kq : String) :
    getProjectSession ((getSession mm k now).1) kq = getProjectSession mm kq := by
  by_cases hq : kq = k
  · subst hq
    rw [getProjectSession, mapGet_getSession_fst_self]
    simpa using getSession_snd_projectSession mm kq now
  · rw [getProjectSession, mapGet_getSession_fst_ne mm k now kq hq, getProjectSession]

/-! ### Frame and update lemmas for the store operations -/

theorem updateProjectPhase_eq_modify (mm : TracerMemoryManager) (k : String)
    (p : ProjectPhase) (now : Nat) :
    updateProjectPhase mm k p now =
      modifyProjectSession mm k (fun ps => { ps with
        currentPhase := p
        metadata := { ps.metadata with updatedAt := now, lastPhaseChange := now } }) now := rfl

theorem setRequirements_eq_modify (mm : TracerMemoryManager) (k : String)
    (r : RequirementsData) (now : Nat) :
    setRequirements mm k r now =
      modifyProjectSession mm k (fun ps => { ps with
        requirements := some r
        metadata := { ps.metadata with updatedAt := now } }) now := rfl

theorem setDesign_eq_modify (mm : TracerMemoryManager) (k : String)
    (d : DesignData) (now : Nat) :
    setDesign mm k d now =
      modifyProjectSession mm k (fun ps => { ps with
        design := some d
        metadata := { ps.metadata with updatedAt := now } }) now := rfl

theorem setTasks_eq_modify (mm : TracerMemoryManager) (k : String)
    (t : TasksData) (now : Nat) :
    setTasks mm k t now =
      modifyProjectSession mm k (fun ps => { ps with
        tasks := some t
        metadata := { ps.metadata with updatedAt := now } }) now := rfl

theorem getProjectSession_modify (mm : TracerMemoryManager) (k : String)
    (f : ProjectSession → ProjectSession) (now : Nat) (kq : String) :
    getProjectSession (modifyProjectSession mm k f now) kq =
      if kq = k then (getProjectSession mm k).map f else getProjectSession mm kq := by
  have hsnd := getSession_snd_projectSession mm k now
  unfold modifyProjectSession
  cases hps : ((getSession mm k now).2).projectSession with
  | none =>
    rw [hps] at hsnd
    simp only
    rw [hps]
    rw [getProjectSession_getSession_fst]
    by_cases hq : kq = k
    · subst hq
      rw [if_pos rfl, ← hsnd]
      rfl
    · rw [if_neg hq]
  | some ps =>
    rw [hps] at hsnd
    simp only
    rw [hps]
    by_cases hq : kq = k
    · subst hq
      rw [if_pos rfl, getProjectSession]
      show (mapGet (mapSet ((getSession mm kq now).1).sessions kq _) kq).bind _ = _
      rw [mapGet_mapSet_self]
      rw [← hsnd]
      rfl
    · rw [if_neg hq, getProjectSession]
      show (mapGet (mapSet ((getSession mm k now).1).sessions k _) kq).bind _ = _
      rw [mapGet_mapSet_ne _ _ _ _ hq, mapGet_getSession_fst_ne mm k now kq hq,
        getProjectSession]

theorem getProjectSession_addMessage (mm : TracerMemoryManager) (k : String) (role : Role)
    (content : String) (now : Nat) (kq : String) :
    getProjectSession (addMessage mm k role content now) kq = getProjectSession mm kq := by
  unfold addMessage
  simp only
  by_cases hq : kq = k
  · subst hq
    rw [getProjectSession]
    show (mapGet (mapSet _ kq _) kq).bind _ = _
    rw [mapGet_mapSet_self]
    simpa using getSession_snd_projectSession mm kq now
  · rw [getProjectSession]
    show (mapGet (mapSet _ k _) kq).bind _ = _
    rw [mapGet_mapSet_ne _ _ _ _ hq, mapGet_getSession_fst_ne mm k now kq hq]
    rfl

theorem getProjectSession_initializeProjectSession (mm : TracerMemoryManager)
    (k name : String) (now : Nat) (kq : String) :
    getProjectSession ((initializeProjectSession mm k name now).1) kq =
      if kq = k then some (freshProjectSession k name now) else getProjectSession mm kq := by
  unfold initializeProjectSession
  simp only
  by_cases hq : kq = k
  · subst hq
    rw [if_pos rfl, getProjectSession]
    show (mapGet (mapSet _ kq _) kq).bind _ = _
    rw [mapGet_mapSet_self]
    rfl
  · rw [if_neg hq, getProjectSession]
    show (mapGet (mapSet _ k _) kq).bind _ = _
    rw [mapGet_mapSet_ne _ _ _ _ hq, mapGet_getSession_fst_ne mm k now kq hq]
    rfl

theorem phaseOf_getSession_fst (mm : TracerMemoryManager) (k : String) (now : Nat)
    (kq : String) : phaseOf ((getSession mm k now).1) kq = phaseOf mm kq := by
  rw [phaseOf, getProjectSession_getSession_fst, phaseOf]

theorem phaseOf_addMessage (mm : TracerMemoryManager) (k : String) (role : Role)
    (content : String) (now : Nat) (kq : String) :
    phaseOf (addMessage mm k role content now) kq = phaseOf mm kq := by
  rw [phaseOf, getProjectSession_addMessage, phaseOf]

theorem phaseOf_setRequirements (mm : TracerMemoryManager) (k : String)
    (r : RequirementsData) (now : Nat) (kq : String) :
    phaseOf (setRequirements mm k r now) kq = phaseOf mm kq := by
  rw [phaseOf, setRequirements_eq_modify, getProjectSession_modify]
  by_cases hq : kq = k
  · subst hq
    rw [if_pos rfl, phaseOf]
    cases getProjectSession mm kq <;> rfl
  · rw [if_neg hq, phaseOf]

theorem phaseOf_setDesign (mm : TracerMemoryManager) (k : String)
    (d : DesignData) (now : Nat) (kq : String) :
    phaseOf (setDesign mm k d now) kq = phaseOf mm kq := by
  rw [phaseOf, setDesign_eq_modify, getProjectSession_modify]
  by_cases hq : kq = k
  · subst hq
    rw [if_pos rfl, phaseOf]
    cases getProjectSession mm kq <;> rfl
  · rw [if_neg hq, phaseOf]

theorem phaseOf_setTasks (mm : TracerMemoryManager) (k : String)
    (t : TasksData) (now : Nat) (kq : String) :
    phaseOf (setTasks mm k t now) kq = phaseOf mm kq := by
  rw [phaseOf, setTasks_eq_modify, getProjectSession_modify]
  by_cases hq : kq = k
  · subst hq
    rw [if_pos rfl, phaseOf]
    cases getProjectSession mm kq <;> rfl
  · rw [if_neg hq, phaseOf]

theorem phaseOf_updateProjectPhase (mm : TracerMemoryManager) (k : String)
    (p : ProjectPhase) (now : Nat) (kq : String) :
    phaseOf (updateProjectPhase mm k p now) kq =
      if kq = k then (phaseOf mm k).map (fun _ => p) else phaseOf mm kq := by
  rw [phaseOf, updateProjectPhase_eq_modify, getProjectSession_modify]
  by_cases hq : kq = k
  · subst hq
    rw [if_pos rfl, if_pos rfl, phaseOf]
    cases getProjectSession mm kq <;> rfl
  · rw [if_neg hq, if_neg hq, phaseOf]

theorem phaseOf_initializeProjectSession (mm : TracerMemoryManager)
    (k name : String) (now : Nat) (kq : String) :
    phaseOf ((initializeProjectSession mm k name now).1) kq =
      if kq = k then some ProjectPhase.requirements else phaseOf mm kq := by
  rw [phaseOf, getProjectSession_initializeProjectSession]
  by_cases hq : kq = k
  · rw [if_pos hq, if_pos hq]
    rfl
  · rw [if_neg hq, if_neg hq, phaseOf]

theorem payloadsOf_getSession_fst (mm : TracerMemoryManager) (k : String) (now : Nat)
    (kq : String) : payloadsOf ((getSession mm k now).1) kq = payloadsOf mm kq := by
  rw [payloadsOf, getProjectSession_getSession_fst, payloadsOf]

theorem payloadsOf_addMessage (mm : TracerMemoryManager) (k : String) (role : Role)
    (content : String) (now : Nat) (kq : String) :
    payloadsOf (addMessage mm k role content now) kq = payloadsOf mm kq := by
  rw [payloadsOf, getProjectSession_addMessage, payloadsOf]

theorem isPhaseComplete_congr (mm mm' : TracerMemoryManager) (k k' : String)
    (h : getProjectSession mm' k' = getProjectSession mm k) (ph : ProjectPhase) :
    isPhaseComplete mm' k' ph = isPhaseComplete mm k ph := by
  unfold getProjectSession at h
  unfold isPhaseComplete
  rw [h]

theorem phaseLe_refl (o : Option ProjectPhase) : phaseLe o o := by
  cases o <;> simp [phaseLe]

theorem phaseLe_of_eq {a b : Option ProjectPhase} (h : a = b) : phaseLe a b := by
  rw [h]
  exact phaseLe_refl b

theorem phaseLe_trans {a b c : Option ProjectPhase}
    (hab : phaseLe a b) (hbc : phaseLe b c) : phaseLe a c := by
  cases a with
  | none => exact trivial
  | some p =>
    cases b with
    | none => exact absurd hab (by simp [phaseLe])
    | some q =>
      cases c with
      | none => exact absurd hbc (by simp [phaseLe])
      | some r => exact Nat.le_trans hab hbc

/-! ### Lemmas about the document-generation section -/

theorem runPhaseGeneration_error_result (mm : TracerMemoryManager) (oracle : AgentOracle)
    (sid : String) (ps : ProjectSession) (reply : String) (now : Nat)
    (p : ProjectPhase) (e : String)
    (hphase : ps.currentPhase = p) (hp : p ≠ ProjectPhase.complete)
    (hcomp : isPhaseComplete mm sid p = true)
    (hgen : genResultFor oracle p = Except.error e) :
    (runPhaseGeneration mm oracle sid ps reply now).1 = mm ∧
    (runPhaseGeneration mm oracle sid ps reply now).2.1 = reply ∧
    (runPhaseGeneration mm oracle sid ps reply now).2.2.1 = none := by
  cases p with
  | complete => exact absurd rfl hp
  | requirements =>
    simp only [genResultFor] at hgen
    refine ⟨?_, ?_, ?_⟩ <;> simp [runPhaseGeneration, hphase, hcomp, hgen]
  | design =>
    simp only [genResultFor] at hgen
    refine ⟨?_, ?_, ?_⟩ <;> simp [runPhaseGeneration, hphase, hcomp, hgen]
  | tasks =>
    simp only [genResultFor] at hgen
    refine ⟨?_, ?_, ?_⟩ <;> simp [runPhaseGeneration, hphase, hcomp, hgen]

theorem runPhaseGeneration_ok_result (mm : TracerMemoryManager) (oracle : AgentOracle)
    (sid : String) (ps : ProjectSession) (reply : String) (now : Nat)
    (p : ProjectPhase) (doc : String)
    (hps : getProjectSession mm sid = some ps)
    (hphase : ps.currentPhase = p) (hp : p ≠ ProjectPhase.complete)
    (hcomp : isPhaseComplete mm sid p = true)
    (hgen : genResultFor oracle p = Except.ok doc) :
    (runPhaseGeneration mm oracle sid ps reply now).2.1 = reply ++ transitionNote p ∧
    (runPhaseGeneration mm oracle sid ps reply now).2.2.1 = some (p, doc) ∧
    phaseOf (runPhaseGeneration mm oracle sid ps reply now).1 sid = some (nextPhase p) := by
  have hm : phaseOf mm sid = some p := by
    rw [phaseOf, hps]
    simp [hphase]
  cases p with
  | complete => exact absurd rfl hp
  | requirements =>
    simp only [genResultFor] at hgen
    have hred : (runPhaseGeneration mm oracle sid ps reply now).1 =
        updateProjectPhase (setRequirements mm sid (ps.requirements.getD default) now) sid
          ProjectPhase.design now := by
      simp [runPhaseGeneration, hphase, hcomp, hgen]
    refine ⟨?_, ?_, ?_⟩
    · simp [runPhaseGeneration, hphase, hcomp, hgen, transitionNote]
    · simp [runPhaseGeneration, hphase, hcomp, hgen]
    · rw [hred, phaseOf_updateProjectPhase, if_pos rfl, phaseOf_setRequirements, hm]
      rfl
  | design =>
    simp only [genResultFor] at hgen
    have hred : (runPhaseGeneration mm oracle sid ps reply now).1 =
        updateProjectPhase (setDesign mm sid (ps.design.getD default) now) sid
          ProjectPhase.tasks now := by
      simp [runPhaseGeneration, hphase, hcomp, hgen]
    refine ⟨?_, ?_, ?_⟩
    · simp [runPhaseGeneration, hphase, hcomp, hgen, transitionNote]
    · simp [runPhaseGeneration, hphase, hcomp, hgen]
    · rw [hred, phaseOf_updateProjectPhase, if_pos rfl, phaseOf_setDesign, hm]
      rfl
  | tasks =>
    simp only [genResultFor] at hgen
    have hred : (runPhaseGeneration mm oracle sid ps reply now).1 =
        updateProjectPhase (setTasks mm sid (ps.tasks.getD default) now) sid
          ProjectPhase.complete now := by
      simp [runPhaseGeneration, hphase, hcomp, hgen]
    refine ⟨?_, ?_, ?_⟩
    · simp [runPhaseGeneration, hphase, hcomp, hgen, transitionNote]
    · simp [runPhaseGeneration, hphase, hcomp, hgen]
    · rw [hred, phaseOf_updateProjectPhase, if_pos rfl, phaseOf_setTasks, hm]
      rfl

theorem runPhaseGeneration_phaseLe (mm : TracerMemoryManager) (oracle : AgentOracle)
    (sid : String) (ps : ProjectSession) (reply : String) (now : Nat)
    (hps : getProjectSession mm sid = some ps) (k : String) :
    phaseLe (phaseOf mm k) (phaseOf (runPhaseGeneration mm oracle sid ps reply now).1 k) := by
  have hm : phaseOf mm sid = some ps.currentPhase := by
    rw [phaseOf, hps]
    rfl
  unfold runPhaseGeneration
  split
  case isTrue h =>
    cases hg : oracle.genRequirementsResult with
    | ok doc =>
      simp only
      by_cases hk : k = sid
      · subst hk
        rw [phaseOf_updateProjectPhase, if_pos rfl, phaseOf_setRequirements, hm, h.1]
        simp [phaseLe, phaseIdx]
      · rw [phaseOf_updateProjectPhase, if_neg hk, phaseOf_setRequirements]
        exact phaseLe_refl _
    | error e =>
      simp only
      exact phaseLe_refl _
  case isFalse h1 =>
    split
    case isTrue h =>
      cases hg : oracle.genDesignResult with
      | ok doc =>
        simp only
        by_cases hk : k = sid
        · subst hk
          rw [phaseOf_updateProjectPhase, if_pos rfl, phaseOf_setDesign, hm, h.1]
          simp [phaseLe, phaseIdx]
        · rw [phaseOf_updateProjectPhase, if_neg hk, phaseOf_setDesign]
          exact phaseLe_refl _
      | error e =>
        simp only
        exact phaseLe_refl _
    case isFalse h2 =>
      split
      case isTrue h =>
        cases hg : oracle.genTasksResult with
        | ok doc =>
          simp only
          by_cases hk : k = sid
          · subst hk
            rw [phaseOf_updateProjectPhase, if_pos rfl, phaseOf_setTasks, hm, h.1]
            simp [phaseLe, phaseIdx]
          · rw [phaseOf_updateProjectPhase, if_neg hk, phaseOf_setTasks]
            exact phaseLe_refl _
        | error e =>
          simp only
          exact phaseLe_refl _
      case isFalse h3 =>
        exact phaseLe_refl _

theorem runPhaseGeneration_genTasks_args (mm : TracerMemoryManager) (oracle : AgentOracle)
    (sid : String) (ps : ProjectSession) (reply : String) (now : Nat) (d r : String)
    (h : CapabilityCall.genTasks d r ∈ (runPhaseGeneration mm oracle sid ps reply now).2.2.2) :
    d = "Design document" ∧ r = "Requirements document" := by
  unfold runPhaseGeneration at h
  split at h
  · cases hg : oracle.genRequirementsResult with
    | ok doc => rw [hg] at h; simp at h
    | error e => rw [hg] at h; simp at h
  · split at h
    · cases hg : oracle.genDesignResult with
      | ok doc => rw [hg] at h; simp at h
      | error e => rw [hg] at h; simp at h
    · split at h
      · cases hg : oracle.genTasksResult with
        | ok doc =>
          rw [hg] at h
          simp at h
          exact ⟨h.1, h.2⟩
        | error e =>
          rw [hg] at h
          simp at h
          exact ⟨h.1, h.2⟩
      · simp at h

/-! ### Lemmas about the `POST` handler -/

theorem phaseLe_through_init (mm : TracerMemoryManager) (esid u : String) (now : Nat)
    (cond : Prop) [inst : Decidable cond]
    (hc : cond →
      getProjectSession (addMessage ((getSession mm esid now).1) esid Role.user u now) esid
        = none)
    (k : String) :
    phaseLe (phaseOf mm k)
      (phaseOf (if cond then
          (initializeProjectSession (addMessage ((getSession mm esid now).1) esid Role.user u now)
            esid "New Project" now).1
        else addMessage ((getSession mm esid now).1) esid Role.user u now) k) := by
  have hframe : ∀ kq,
      phaseOf (addMessage ((getSession mm esid now).1) esid Role.user u now) kq
        = phaseOf mm kq := by
    intro kq
    rw [phaseOf_addMessage, phaseOf_getSession_fst]
  split
  case isTrue h =>
    rw [phaseOf_initializeProjectSession]
    by_cases hk : k = esid
    · subst hk
      rw [if_pos rfl]
      have h0 : phaseOf mm k = none := by
        rw [← hframe k, phaseOf, hc h]
        rfl
      rw [h0]
      exact trivial
    · rw [if_neg hk, hframe]
      exact phaseLe_refl _
  case isFalse h =>
    rw [hframe]
    exact phaseLe_refl _

theorem POST_phaseOf_le (mm : TracerMemoryManager) (oracle : AgentOracle)
    (hasApiKey agentsOk : Bool) (messages : Option (List UIMessage))
    (sessionId : Option String) (now : Nat) (k : String) :
    phaseLe (phaseOf mm k)
      (phaseOf (POST mm oracle hasApiKey agentsOk messages sessionId now).2.1 k) := by
  unfold POST
  split
  · exact phaseLe_refl _
  split
  · exact phaseLe_refl _
  simp only
  split
  · exact phaseLe_refl _
  cases hc : oracle.chatResult with
  | error e =>
    simp only
    exact phaseLe_through_init mm _ _ now _ (fun h => h.1) k
  | ok reply =>
    simp only
    rw [phaseOf_addMessage]
    cases hproj : getProjectSession
        (if getProjectSession
              (addMessage ((getSession mm _ now).1) _ Role.user _ now) _ = none ∧
            (messages.getD []).length = 1 then
          (initializeProjectSession
            (addMessage ((getSession mm _ now).1) _ Role.user _ now) _ "New Project" now).1
        else addMessage ((getSession mm _ now).1) _ Role.user _ now) _ with
    | none =>
      simp only
      exact phaseLe_through_init mm _ _ now _ (fun h => h.1) k
    | some ps =>
      simp only
      exact phaseLe_trans (phaseLe_through_init mm _ _ now _ (fun h => h.1) k)
        (runPhaseGeneration_phaseLe _ oracle _ ps reply now hproj k)

theorem POST_ok_unfold (mm : TracerMemoryManager) (oracle : AgentOracle)
    (msgs : List UIMessage) (sid : String) (now : Nat) (ps : ProjectSession) (reply : String)
    (hsid : ¬ sid = "") (hmsgs : ¬ msgs.length = 0)
    (hps : getProjectSession mm sid = some ps)
    (hchat : oracle.chatResult = Except.ok reply) :
    POST mm oracle true true (some msgs) (some sid) now =
      (let u := (((msgs.getLastD default).parts.find? (fun p => p.type == "text")).map
          (fun p => p.text)).getD ""
       let mm2 := addMessage ((getSession mm sid now).1) sid Role.user u now
       let gen := runPhaseGeneration mm2 oracle sid ps reply now
       let mm5 := addMessage gen.1 sid Role.assistant gen.2.1 now
       (PostResponse.ok gen.2.1 gen.2.2.1
          (if gen.2.2.1.isSome = true then getProjectSession mm5 sid else none),
        mm5, CapabilityCall.chat u :: gen.2.2.2)) := by
  have hps2 : ∀ u, getProjectSession
      (addMessage ((getSession mm sid now).1) sid Role.user u now) sid = some ps := by
    intro u
    rw [getProjectSession_addMessage, getProjectSession_getSession_fst, hps]
  unfold POST
  simp [hchat, hps2, hsid, hmsgs]

theorem phaseOf_some_elim {mm : TracerMemoryManager} {sid : String} {p : ProjectPhase}
    (h : phaseOf mm sid = some p) :
    ∃ ps, getProjectSession mm sid = some ps ∧ ps.currentPhase = p := by
  rw [phaseOf] at h
  cases hg : getProjectSession mm sid with
  | none => rw [hg] at h; simp at h
  | some ps =>
    rw [hg] at h
    simp at h
    exact ⟨ps, rfl, h⟩

/-- C4: if the phase-appropriate document-generation capability throws in the
phase-completion branch, the request still returns a success response with the
plain assistant reply and no document, the stored payloads are untouched, and
`currentPhase` is not advanced (so generation is re-attempted on the next
qualifying message). -/
theorem post_docgen_failure_recovered (mm : TracerMemoryManager) (oracle : AgentOracle)
    (msgs : List UIMessage) (sid : String) (now : Nat) (p : ProjectPhase)
    (e reply : String)
    (hsid : ¬ sid = "") (hmsgs : ¬ msgs.length = 0)
    (hphase : phaseOf mm sid = some p) (hp : p ≠ ProjectPhase.complete)
    (hcomp : isPhaseComplete mm sid p = true)
    (hchat : oracle.chatResult = Except.ok reply)
    (hgen : genResultFor oracle p = Except.error e) :
    (POST mm oracle true true (some msgs) (some sid) now).1 =
      PostResponse.ok reply none none ∧
    phaseOf (POST mm oracle true true (some msgs) (some sid) now).2.1 sid = some p ∧
    payloadsOf (POST mm oracle true true (some msgs) (some sid) now).2.1 sid =
      payloadsOf mm sid := by
  obtain ⟨ps, hps, hpc⟩ := phaseOf_some_elim hphase
  simp only [POST_ok_unfold mm oracle msgs sid now ps reply hsid hmsgs hps hchat]
  set u := (((msgs.getLastD default).parts.find? (fun p => p.type == "text")).map
    (fun p => p.text)).getD "" with hu
  set mm2 := addMessage ((getSession mm sid now).1) sid Role.user u now with hmm2
  have hframe : getProjectSession mm2 sid = getProjectSession mm sid := by
    rw [hmm2, getProjectSession_addMessage, getProjectSession_getSession_fst]
  have hcomp2 : isPhaseComplete mm2 sid p = true := by
    rw [isPhaseComplete_congr mm mm2 sid sid hframe p]
    exact hcomp
  obtain ⟨h1, h2, h3⟩ :=
    runPhaseGeneration_error_result mm2 oracle sid ps reply now p e hpc hp hcomp2 hgen
  refine ⟨?_, ?_, ?_⟩
  · simp [h2, h3]
  · rw [phaseOf_addMessage, h1, hmm2, phaseOf_addMessage, phaseOf_getSession_fst, hphase]
  · rw [payloadsOf_addMessage, h1, hmm2, payloadsOf_addMessage, payloadsOf_getSession_fst]

/-- C5: once a session's current phase is complete and the generation call
succeeds, the response carries a document of that phase's type together with a
project-session snapshot, the transition note is appended to the reply, and
the phase advances to the next one in the fixed order. -/
theorem post_phase_completion_advances (mm : TracerMemoryManager) (oracle : AgentOracle)
    (msgs : List UIMessage) (sid : String) (now : Nat) (p : ProjectPhase)
    (doc reply : String)
    (hsid : ¬ sid = "") (hmsgs : ¬ msgs.length = 0)
    (hphase : phaseOf mm sid = some p) (hp : p ≠ ProjectPhase.complete)
    (hcomp : isPhaseComplete mm sid p = true)
    (hchat : oracle.chatResult = Except.ok reply)
    (hgen : genResultFor oracle p = Except.ok doc) :
    (∃ snap, (POST mm oracle true true (some msgs) (some sid) now).1 =
        PostResponse.ok (reply ++ transitionNote p) (some (p, doc)) (some snap) ∧
        snap.currentPhase = nextPhase p) ∧
    phaseOf (POST mm oracle true true (some msgs) (some sid) now).2.1 sid =
      some (nextPhase p) := by
  obtain ⟨ps, hps, hpc⟩ := phaseOf_some_elim hphase
  simp only [POST_ok_unfold mm oracle msgs sid now ps reply hsid hmsgs hps hchat]
  set u := (((msgs.getLastD default).parts.find? (fun p => p.type == "text")).map
    (fun p => p.text)).getD "" with hu
  set mm2 := addMessage ((getSession mm sid now).1) sid Role.user u now with hmm2
  have hframe : getProjectSession mm2 sid = getProjectSession mm sid := by
    rw [hmm2, getProjectSession_addMessage, getProjectSession_getSession_fst]
  have hcomp2 : isPhaseComplete mm2 sid p = true := by
    rw [isPhaseComplete_congr mm mm2 sid sid hframe p]
    exact hcomp
  have hps2 : getProjectSession mm2 sid = some ps := by rw [hframe, hps]
  obtain ⟨h1, h2, h3⟩ :=
    runPhaseGeneration_ok_result mm2 oracle sid ps reply now p doc hps2 hpc hp hcomp2 hgen
  obtain ⟨snap, hsnap, hsc⟩ := phaseOf_some_elim h3
  refine ⟨⟨snap, ?_, hsc⟩, ?_⟩
  · rw [h1, h2]
    simp only [Option.isSome_some, if_pos]
    rw [getProjectSession_addMessage, hsnap]
  · rw [phaseOf_addMessage, h3]

/-- C1: across every sequence of `POST` orchestration steps, each session's
`currentPhase` only ever moves forward in the fixed order
requirements→design→tasks→complete (and, being of type `ProjectPhase`, it is
always one of the four defined phases); it never moves backward. -/
theorem post_currentPhase_monotone (mm : TracerMemoryManager)
    (reqs : List PostRequest) (k : String) :
    phaseLe (phaseOf mm k) (phaseOf (reqs.foldl postStep mm) k) := by
  induction reqs generalizing mm with
  | nil => exact phaseLe_refl _
  | cons r rest ih =>
    rw [List.foldl_cons]
    exact phaseLe_trans
      (POST_phaseOf_le mm r.oracle r.hasApiKey r.agentsOk r.messages r.sessionId r.now k)
      (ih (postStep mm r))

/-- C2 counterexample: calling `initializeProjectSession` on a session that
already has a Project Session is not a no-op — at this concrete store the
stored Project Session changes, and its phase drops from `design` back to
`requirements`. -/
theorem initializeProjectSession_not_noop :
    phaseOf mmBeforeReinit "s" = some ProjectPhase.design ∧
    getProjectSession ((initializeProjectSession mmBeforeReinit "s" "Proj" 3).1) "s" ≠
      getProjectSession mmBeforeReinit "s" ∧
    phaseOf ((initializeProjectSession mmBeforeReinit "s" "Proj" 3).1) "s" =
      some ProjectPhase.requirements := by
  refine ⟨by decide, by decide, by decide⟩

/-- C2 (amended): calling `initializeProjectSession` again on a key that
already has a Project Session does not leave it unchanged — it unconditionally
replaces it with a fresh Project Session (phase `requirements`, no payloads,
empty question and answer logs, timestamps set to the call time); the `POST`
handler avoids this only by initializing exclusively when no Project Session
exists. -/
theorem initializeProjectSession_overwrites (mm : TracerMemoryManager)
    (k name : String) (now : Nat) :
    getProjectSession ((initializeProjectSession mm k name now).1) k =
      some (freshProjectSession k name now) := by
  rw [getProjectSession_initializeProjectSession, if_pos rfl]

/-- C3: `isPhaseComplete` is `true` exactly when the key has a Project Session
whose payload for that phase is stored (for `complete`: all three payloads);
in particular it is `false` for every phase when no Project Session exists. -/
theorem isPhaseComplete_characterization (mm : TracerMemoryManager) (k : String)
    (ph : ProjectPhase) :
    isPhaseComplete mm k ph = true ↔
      ∃ ps, getProjectSession mm k = some ps ∧
        (match ph with
         | ProjectPhase.requirements => ps.requirements.isSome = true
         | ProjectPhase.design => ps.design.isSome = true
         | ProjectPhase.tasks => ps.tasks.isSome = true
         | ProjectPhase.complete => ps.requirements.isSome = true ∧
             ps.design.isSome = true ∧ ps.tasks.isSome = true) := by
  have hrw : isPhaseComplete mm k ph =
      match getProjectSession mm k with
      | none => false
      | some ps =>
        match ph with
        | ProjectPhase.requirements => ps.requirements.isSome
        | ProjectPhase.design => ps.design.isSome
        | ProjectPhase.tasks => ps.tasks.isSome
        | ProjectPhase.complete =>
            ps.requirements.isSome && ps.design.isSome && ps.tasks.isSome := rfl
  rw [hrw]
  cases hg : getProjectSession mm k with
  | none => cases ph <;> simp
  | some ps => cases ph <;> simp [Bool.and_eq_true, and_assoc]

/-- C7: a request whose messages array is missing or empty is rejected with a
client error (HTTP 400, "No messages provided"); the session store is returned
exactly as it was and no capability is invoked. -/
theorem post_no_messages_rejected (mm : TracerMemoryManager) (oracle : AgentOracle)
    (messages : Option (List UIMessage)) (sessionId : Option String) (now : Nat)
    (h : messages = none ∨ messages = some []) :
    POST mm oracle true true messages sessionId now =
      (PostResponse.errorResponse 400 "No messages provided", mm, []) := by
  rcases h with h | h <;> subst h <;> rfl

/-- C9: whenever the `POST` handler invokes the Tasks-generation capability,
it passes the literal placeholder strings "Design document" and
"Requirements document" instead of the stored payload text. -/
theorem post_generateTasks_placeholder (mm : TracerMemoryManager) (oracle : AgentOracle)
    (hasApiKey agentsOk : Bool) (messages : Option (List UIMessage))
    (sessionId : Option String) (now : Nat) (d r : String)
    (hmem : CapabilityCall.genTasks d r ∈
      (POST mm oracle hasApiKey agentsOk messages sessionId now).2.2) :
    d = "Design document" ∧ r = "Requirements document" := by
  unfold POST at hmem
  split at hmem
  · simp at hmem
  split at hmem
  · simp at hmem
  simp only at hmem
  split at hmem
  · simp at hmem
  cases hc : oracle.chatResult with
  | error e =>
    simp only [hc] at hmem
    simp at hmem
  | ok reply =>
    simp only [hc] at hmem
    rcases List.mem_cons.mp hmem with hhd | htl
    · simp at hhd
    · revert htl
      cases hproj : getProjectSession
          (if getProjectSession
                (addMessage ((getSession mm _ now).1) _ Role.user _ now) _ = none ∧
              (messages.getD []).length = 1 then
            (initializeProjectSession
              (addMessage ((getSession mm _ now).1) _ Role.user _ now) _ "New Project" now).1
          else addMessage ((getSession mm _ now).1) _ Role.user _ now) _ with
      | none =>
        intro htl
        simp at htl
      | some ps =>
        intro htl
        exact runPhaseGeneration_genTasks_args _ oracle _ ps reply now d r htl

/-- C6: one `addMessage` call appends the entry and keeps exactly the most
recent `maxMessagesPerSession` entries in their original order (dropping only
the oldest ones), so for any positive cap the history length never exceeds the
cap after any sequence of calls. -/
theorem addMessage_cap_fifo (mm : TracerMemoryManager) (k : String) (role : Role)
    (content : String) (now : Nat)
    (hcap : 0 < mm.maxMessagesPerSession) :
    historyOf (addMessage mm k role content now) k =
      (historyOf mm k ++ [(Message.mk role content now)]).drop
        ((historyOf mm k).length + 1 - mm.maxMessagesPerSession) ∧
    (historyOf (addMessage mm k role content now) k).length ≤ mm.maxMessagesPerSession := by
  have key : historyOf (addMessage mm k role content now) k =
      (if (historyOf mm k ++ [(Message.mk role content now)]).length >
          mm.maxMessagesPerSession then
        jsSliceLast mm.maxMessagesPerSession
          (historyOf mm k ++ [(Message.mk role content now)])
      else historyOf mm k ++ [(Message.mk role content now)]) := by
    unfold addMessage
    simp only
    rw [historyOf, mapGet_mapSet_self]
    simp [getSession_snd_history mm k now, getSession_fst_max mm k now]
  rw [key]
  have hc0 : mm.maxMessagesPerSession ≠ 0 := Nat.pos_iff_ne_zero.mp hcap
  by_cases hlen :
      (historyOf mm k ++ [(Message.mk role content now)]).length >
        mm.maxMessagesPerSession
  · rw [if_pos hlen]
    constructor
    · rw [jsSliceLast, if_neg hc0]
      congr 1
      simp
    · rw [jsSliceLast, if_neg hc0, List.length_drop]
      simp at hlen ⊢
      omega
  · rw [if_neg hlen]
    simp at hlen
    constructor
    · have h0 : (historyOf mm k).length + 1 - mm.maxMessagesPerSession = 0 := by omega
      rw [h0, List.drop_zero]
    · simp
      omega

/-- C10: for a key without a Project Session, `updateProjectPhase`,
`setRequirements`, `setDesign` and `setTasks` silently do nothing: no payload
is stored, no phase changes, no error is raised; the only possible state
change is the lazy creation of a fresh empty session record for a previously
unknown key. -/
theorem mutators_noop_without_project_session (mm : TracerMemoryManager) (k : String)
    (now : Nat) (p : ProjectPhase) (r : RequirementsData) (d : DesignData) (t : TasksData)
    (h : getProjectSession mm k = none) :
    updateProjectPhase mm k p now = (getSession mm k now).1 ∧
    setRequirements mm k r now = (getSession mm k now).1 ∧
    setDesign mm k d now = (getSession mm k now).1 ∧
    setTasks mm k t now = (getSession mm k now).1 ∧
    getProjectSession ((getSession mm k now).1) k = none ∧
    (∀ ctx, mapGet mm.sessions k = some ctx → (getSession mm k now).1 = mm) ∧
    (mapGet mm.sessions k = none →
      ((getSession mm k now).1).sessions = mapSet mm.sessions k (emptyChatContext k now)) := by
  have hsnd : ((getSession mm k now).2).projectSession = none := by
    rw [getSession_snd_projectSession, h]
  have hop : ∀ f, modifyProjectSession mm k f now = (getSession mm k now).1 := by
    intro f
    unfold modifyProjectSession
    simp only
    rw [hsnd]
  refine ⟨?_, ?_, ?_, ?_, ?_, ?_, ?_⟩
  · rw [updateProjectPhase_eq_modify, hop]
  · rw [setRequirements_eq_modify, hop]
  · rw [setDesign_eq_modify, hop]
  · rw [setTasks_eq_modify, hop]
  · rw [getProjectSession_getSession_fst, h]
  · intro ctx hctx
    rw [getSession_eq_of_get_some mm k now ctx hctx]
  · intro hnone
    rw [getSession_eq_of_get_none mm k now hnone]

/-! ### Lemmas about `pruneOldSessions` -/

theorem foldl_pruneStep_count (cutoff : Int) :
    ∀ (l : List (String × ChatContext)) (acc : List (String × ChatContext)) (n : Nat),
      (l.foldl (pruneStep cutoff) (acc, n)).2 = n + l.countP (isStale cutoff) := by
  intro l
  induction l with
  | nil => intro acc n; simp
  | cons e rest ih =>
    intro acc n
    rw [List.foldl_cons]
    by_cases hs : isStale cutoff e = true
    · rw [List.countP_cons_of_pos _ _ hs]
      simp only [pruneStep, hs, if_true]
      rw [ih]
      omega
    · rw [List.countP_cons_of_neg _ _ hs]
      simp only [pruneStep, hs, if_false]
      rw [ih]
      simp

theorem mapDelete_append_of_not_key (pre acc : List (String × ChatContext)) (k : String)
    (h : ∀ p ∈ pre, ¬ p.1 = k) :
    mapDelete (pre ++ acc) k = pre ++ mapDelete acc k := by
  induction pre with
  | nil => simp
  | cons e rest ih =>
    have he : ¬ e.1 = k := h e (List.mem_cons_self e rest)
    obtain ⟨k', v'⟩ := e
    simp only [List.cons_append, mapDelete, List.append_eq]
    rw [if_neg (by simpa using he),
      ih (fun p hp => h p (List.mem_cons_of_mem _ hp))]

theorem foldl_pruneStep_append (cutoff : Int) :
    ∀ (l pre acc : List (String × ChatContext)) (n : Nat),
      (∀ e ∈ l, ∀ p ∈ pre, ¬ p.1 = e.1) →
      (l.foldl (pruneStep cutoff) (pre ++ acc, n)).1 =
        pre ++ (l.foldl (pruneStep cutoff) (acc, n)).1 := by
  intro l
  induction l with
  | nil => intro pre acc n h; simp
  | cons e rest ih =>
    intro pre acc n h
    have hpre : ∀ p ∈ pre, ¬ p.1 = e.1 := h e (List.mem_cons_self e rest)
    have hrest : ∀ e' ∈ rest, ∀ p ∈ pre, ¬ p.1 = e'.1 :=
      fun e' he' => h e' (List.mem_cons_of_mem _ he')
    by_cases hs : isStale cutoff e = true
    · rw [List.foldl_cons, List.foldl_cons]
      simp only [pruneStep, hs, if_true]
      rw [mapDelete_append_of_not_key pre acc e.1 hpre]
      exact ih pre _ _ hrest
    · rw [List.foldl_cons, List.foldl_cons]
      simp only [pruneStep, hs, if_false]
      exact ih pre acc n hrest

theorem foldl_pruneStep_self (cutoff : Int) :
    ∀ (l : List (String × ChatContext)) (n : Nat), (l.map Prod.fst).Nodup →
      (l.foldl (pruneStep cutoff) (l, n)).1 = l.filter (fun p => ! isStale cutoff p) := by
  intro l
  induction l with
  | nil => intro n h; simp
  | cons e rest ih =>
    intro n h
    rw [List.map_cons, List.nodup_cons] at h
    obtain ⟨hnotin, hnd⟩ := h
    by_cases hs : isStale cutoff e = true
    · rw [List.foldl_cons]
      have hdel : mapDelete (e :: rest) e.1 = rest := by
        obtain ⟨k', v'⟩ := e
        simp [mapDelete]
      simp only [pruneStep, hs, if_true]
      rw [hdel, ih (n + 1) hnd, List.filter_cons]
      simp [hs]
    · rw [List.foldl_cons]
      have hstep : pruneStep cutoff (e :: rest, n) e = (e :: rest, n) := by
        simp [pruneStep, hs]
      rw [hstep]
      have hpre : ∀ e' ∈ rest, ∀ p ∈ [e], ¬ p.1 = e'.1 := by
        intro e' he' p hp
        rw [List.mem_singleton] at hp
        subst hp
        intro hEq
        exact hnotin (hEq ▸ List.mem_map_of_mem Prod.fst he')
      have happ := foldl_pruneStep_append cutoff rest [e] rest n hpre
      rw [show e :: rest = [e] ++ rest from rfl, happ, ih n hnd, List.filter_append]
      simp [hs]

/-- C8: `pruneOldSessions` removes exactly the sessions whose last-update
timestamp is older than `now` minus `hoursOld` hours, returns the number of
sessions removed, and every other session remains and is still listed by
`getActiveSessions`. -/
theorem pruneOldSessions_spec (mm : TracerMemoryManager) (hoursOld now : Nat)
    (hnd : (mm.sessions.map Prod.fst).Nodup) :
    (pruneOldSessions mm hoursOld now).1 =
      mm.sessions.countP (isStale ((now : Int) - (hoursOld : Int) * 60 * 60 * 1000)) ∧
    (pruneOldSessions mm hoursOld now).2.sessions =
      mm.sessions.filter
        (fun p => ! isStale ((now : Int) - (hoursOld : Int) * 60 * 60 * 1000) p) ∧
    getActiveSessions (pruneOldSessions mm hoursOld now).2 =
      (mm.sessions.filter
        (fun p => ! isStale ((now : Int) - (hoursOld : Int) * 60 * 60 * 1000) p)).map
          Prod.fst := by
  refine ⟨?_, ?_, ?_⟩
  · unfold pruneOldSessions
    simp only
    rw [foldl_pruneStep_count]
    simp
  · unfold pruneOldSessions
    simp only
    exact foldl_pruneStep_self _ mm.sessions 0 hnd
  · unfold pruneOldSessions getActiveSessions
    simp only
    rw [foldl_pruneStep_self _ mm.sessions 0 hnd]

/-! ### Witnesses -/

/-- Witness for C4 at a concrete store in phase `design` whose Design payload
exists, with a Design-generation oracle that throws. -/
theorem post_docgen_failure_recovered_witness :
    (¬ ("s" : String) = "") ∧
    phaseOf mmWithDesign "s" = some ProjectPhase.design ∧
    isPhaseComplete mmWithDesign "s" ProjectPhase.design = true ∧
    (POST mmWithDesign designFailOracle true true (some sampleMessages) (some "s") 10).1 =
      PostResponse.ok "reply" none none := by
  refine ⟨by decide, by decide, by decide, ?_⟩
  exact (post_docgen_failure_recovered mmWithDesign designFailOracle sampleMessages "s" 10
    ProjectPhase.design "boom" "reply" (by decide) (by decide) (by decide) (by decide)
    (by decide) rfl rfl).1

/-- Witness for C5 at a concrete store in phase `requirements` whose
Requirements payload exists, with an all-succeeding oracle. -/
theorem post_phase_completion_advances_witness :
    phaseOf mmWithRequirements "s" = some ProjectPhase.requirements ∧
    isPhaseComplete mmWithRequirements "s" ProjectPhase.requirements = true ∧
    phaseOf (POST mmWithRequirements okOracle true true (some sampleMessages)
        (some "s") 10).2.1 "s" = some ProjectPhase.design := by
  refine ⟨by decide, by decide, ?_⟩
  exact (post_phase_completion_advances mmWithRequirements okOracle sampleMessages "s" 10
    ProjectPhase.requirements "REQDOC" "reply" (by decide) (by decide) (by decide) (by decide)
    (by decide) rfl rfl).2

/-- Witness for C6 at the default cap of 50. -/
theorem addMessage_cap_fifo_witness :
    0 < emptyManager.maxMessagesPerSession ∧
    (historyOf (addMessage emptyManager "w6" Role.user "hi" 5) "w6" =
        (historyOf emptyManager "w6" ++ [Message.mk Role.user "hi" 5]).drop
          ((historyOf emptyManager "w6").length + 1 - emptyManager.maxMessagesPerSession) ∧
      (historyOf (addMessage emptyManager "w6" Role.user "hi" 5) "w6").length ≤
        emptyManager.maxMessagesPerSession) :=
  ⟨by decide, addMessage_cap_fifo emptyManager "w6" Role.user "hi" 5 (by decide)⟩

/-- Witness for C7: an empty message list is rejected with HTTP 400 and the
store is returned unchanged. -/
theorem post_no_messages_rejected_witness :
    (some ([] : List UIMessage) = none ∨ some ([] : List UIMessage) = some []) ∧
    POST emptyManager okOracle true true (some []) none 7 =
      (PostResponse.errorResponse 400 "No messages provided", emptyManager, []) :=
  ⟨Or.inr rfl, post_no_messages_rejected emptyManager okOracle (some []) none 7 (Or.inr rfl)⟩

/-- Witness for C8 (scenario E): with one session updated 30 hours ago and one
updated 1 hour ago, pruning at 24 hours removes exactly the stale one. -/
theorem pruneOldSessions_spec_witness :
    (mmTwoSessions.sessions.map Prod.fst).Nodup ∧
    (pruneOldSessions mmTwoSessions 24 (31 * 3600000)).1 = 1 ∧
    getActiveSessions (pruneOldSessions mmTwoSessions 24 (31 * 3600000)).2 = ["recent"] := by
  refine ⟨by decide, ?_, ?_⟩
  · rw [(pruneOldSessions_spec mmTwoSessions 24 (31 * 3600000) (by decide)).1]
    decide
  · rw [(pruneOldSessions_spec mmTwoSessions 24 (31 * 3600000) (by decide)).2.2]
    decide

/-- Witness for C9 at a concrete store that reaches the tasks-completion
branch: the Tasks-generation call is recorded with the placeholder strings. -/
theorem post_generateTasks_placeholder_witness :
    CapabilityCall.genTasks "Design document" "Requirements document" ∈
      (POST mmWithTasks okOracle true true (some sampleMessages) (some "s") 10).2.2 ∧
    ("Design document" : String) = "Design document" ∧
    ("Requirements document" : String) = "Requirements document" := by
  refine ⟨by decide, ?_⟩
  exact post_generateTasks_placeholder mmWithTasks okOracle true true (some sampleMessages)
    (some "s") 10 "Design document" "Requirements document" (by decide)

/-- Witness for C10 at an empty store and an unknown key. -/
theorem mutators_noop_without_project_session_witness :
    getProjectSession emptyManager "w10" = none ∧
    updateProjectPhase emptyManager "w10" ProjectPhase.design 4 =
      (getSession emptyManager "w10" 4).1 :=
  ⟨by decide,
    (mutators_noop_without_project_session emptyManager "w10" 4 ProjectPhase.design
      default default default (by decide)).1⟩

end UAI
